import Mathlib

/-!
Verification of the FEN codec core (`src/lib.rs` of the `chersed` repository).

The Rust source is shallowly embedded: machine integers (`u8`, `u64`, `usize`)
become `Nat` (overflow cannot occur in the reachable arithmetic except where it
is modelled explicitly), and fallible operations return explicit result types.
Rust's debug-profile semantics for unsigned arithmetic is modelled: a
subtraction whose result would be negative, a shift by at least the bit width,
and an out-of-bounds array index are panics, represented by `PRes.panic`.
Characters are full Unicode `Char`s; `char::is_numeric` is modelled by the
Unicode number-category table (`unicodeNumericRanges`).
-/

/-- Outcome of running a piece of Rust code in the debug profile: a value,
a recoverable error (`Err`), or a panic (arithmetic underflow, shift
overflow, or out-of-bounds index). -/
inductive PRes (α : Type) where
  | panic : PRes α
  | fail : String → PRes α
  | ok : α → PRes α
deriving DecidableEq, Repr

/-- Rust debug-profile unsigned subtraction: panics (returns `none`) when the
subtrahend exceeds the minuend. -/
def checkedSub (a b : Nat) : Option Nat :=
  if b ≤ a then some (a - b) else none

/-- Rust `char::to_digit(radix)`: ASCII digits and letters, checked against
the radix. -/
def charToDigit (radix : Nat) (c : Char) : Option Nat :=
  if c.isDigit then
    if c.toNat - 48 < radix then some (c.toNat - 48) else none
  else if 'a' ≤ c && c ≤ 'z' then
    if c.toNat - 97 + 10 < radix then some (c.toNat - 97 + 10) else none
  else if 'A' ≤ c && c ≤ 'Z' then
    if c.toNat - 65 + 10 < radix then some (c.toNat - 65 + 10) else none
  else none

/-- `const FILES: [u64; 8]` from the source. -/
def FILES : List Nat :=
  [0x8080808080808080, 0x4040404040404040, 0x2020202020202020, 0x1010101010101010,
   0x0808080808080808, 0x0404040404040404, 0x0202020202020202, 0x0101010101010101]

/-- `const RANKS: [u64; 8]` from the source. -/
def RANKS : List Nat :=
  [0x00000000000000FF, 0x000000000000FF00, 0x0000000000FF0000, 0x00000000FF000000,
   0x000000FF00000000, 0x0000FF0000000000, 0x00FF000000000000, 0xFF00000000000000]

/-- `const RANK_MATRIX: [&str; 8]` from the source. -/
def RANK_MATRIX : List String := ["a", "b", "c", "d", "e", "f", "g", "h"]

/-- `fn square_number_from_str(str: &str) -> Option<u8>` from the source.
The Rust body is
`str.chars().nth(0)?.to_digit(16)? as u8 - 10 * 8 + str.chars().nth(1)?.to_digit(10)? as u8 - 1`,
which by precedence and evaluation order computes `(first_digit - 80)` first
(a `u8` subtraction that underflows whenever the first character is a hex
digit, since its value is at most 15), then adds the second digit and
subtracts 1.  `PRes.ok none` models the `?` early returns, `PRes.panic` the
debug-profile underflow. -/
def square_number_from_str (s : String) : PRes (Option Nat) :=
  match s.data.get? 0 with
  | none => .ok none
  | some c0 =>
    match charToDigit 16 c0 with
    | none => .ok none
    | some a =>
      match checkedSub a (10 * 8) with
      | none => .panic
      | some a' =>
        match s.data.get? 1 with
        | none => .ok none
        | some c1 =>
          match charToDigit 10 c1 with
          | none => .ok none
          | some b =>
            if a' + b ≤ 255 then
              match checkedSub (a' + b) 1 with
              | none => .panic
              | some v => .ok (some v)
            else .panic

/-- `enum Color` from the source. -/
inductive Color where
  | Black
  | White
deriving DecidableEq, Repr

/-- `Color::index` from the source: `Black => 1, White => 0`. -/
def Color.index : Color → Nat
  | .Black => 1
  | .White => 0

/-- `enum Piece` from the source. -/
inductive Piece where
  | Pawn : Color → Piece
  | Knight : Color → Piece
  | Bishop : Color → Piece
  | Rook : Color → Piece
  | Queen : Color → Piece
  | King : Color → Piece
deriving DecidableEq, Repr

/-- `Piece::index` from the source. -/
def Piece.index : Piece → Nat
  | .Pawn c => 0 + c.index
  | .Knight c => 2 + c.index
  | .Bishop c => 4 + c.index
  | .Rook c => 6 + c.index
  | .Queen c => 8 + c.index
  | .King c => 10 + c.index

/-- `Piece::fen` from the source: the FEN letter of a piece. -/
def Piece.fen : Piece → String
  | .Pawn c => if c = .White then "P" else "p"
  | .Knight c => if c = .White then "N" else "n"
  | .Bishop c => if c = .White then "B" else "b"
  | .Rook c => if c = .White then "R" else "r"
  | .Queen c => if c = .White then "Q" else "q"
  | .King c => if c = .White then "K" else "k"

/-- `Piece::from_index` from the source. -/
def Piece.from_index : Nat → Option Piece
  | 0 => some (.Pawn .White)
  | 1 => some (.Pawn .Black)
  | 2 => some (.Knight .White)
  | 3 => some (.Knight .Black)
  | 4 => some (.Bishop .White)
  | 5 => some (.Bishop .Black)
  | 6 => some (.Rook .White)
  | 7 => some (.Rook .Black)
  | 8 => some (.Queen .White)
  | 9 => some (.Queen .Black)
  | 10 => some (.King .White)
  | 11 => some (.King .Black)
  | _ => none

/-- `Piece::from_char` from the source. -/
def Piece.from_char : Char → Option Piece
  | 'P' => some (.Pawn .White)
  | 'p' => some (.Pawn .Black)
  | 'N' => some (.Knight .White)
  | 'n' => some (.Knight .Black)
  | 'B' => some (.Bishop .White)
  | 'b' => some (.Bishop .Black)
  | 'R' => some (.Rook .White)
  | 'r' => some (.Rook .Black)
  | 'Q' => some (.Queen .White)
  | 'q' => some (.Queen .Black)
  | 'K' => some (.King .White)
  | 'k' => some (.King .Black)
  | _ => none

/-- `struct GameState` from the source.  `bitboards` is the `[u64; 12]`
array (always length 12 in every state the program builds), and
`castling_rights` the `[bool; 4]` array. -/
structure GameState where
  bitboards : List Nat
  active_color : Color
  castling_rights : List Bool
  en_passant_target : Option Nat
  half_move_clock : Nat
  full_move_number : Nat
deriving DecidableEq, Repr

/-- `impl Default for GameState` from the source (standard starting
position).  `RANKS[1]` and `RANKS[6]` are the white and black pawn ranks. -/
def GameState.default : GameState where
  bitboards :=
    [0x000000000000FF00, 0x00FF000000000000,
     0x0000000000000042, 0x4200000000000000,
     0x0000000000000024, 0x2400000000000000,
     0x0000000000000081, 0x8100000000000000,
     0x0000000000000010, 0x1000000000000000,
     0x0000000000000008, 0x0800000000000000]
  active_color := .White
  castling_rights := [true, true, true, true]
  en_passant_target := none
  half_move_clock := 0
  full_move_number := 1

/-- Rust `str::split(pat)` for a single-character pattern, over the character
list of the string: splits at every occurrence of the separator, keeping
empty pieces (so the result is always non-empty). -/
def splitChars (sep : Char) : List Char → List (List Char)
  | [] => [[]]
  | c :: rest =>
    if c = sep then [] :: splitChars sep rest
    else
      match splitChars sep rest with
      | [] => [[c]]
      | g :: gs => (c :: g) :: gs

/-- Rust `char.to_string().parse::<usize>()` for a single character: succeeds
exactly on ASCII decimal digits.  The error message is the one `usize`'s
`FromStr` produces for a non-digit character. -/
def parseUsizeChar (c : Char) : Except String Nat :=
  if c.isDigit then .ok (c.toNat - 48) else .error "invalid digit found in string"

/-- The codepoint ranges above 0x7f whose Unicode general category is a
number category (Nd, Nl or No), per Unicode 14.0: the table behind Rust's
`char::is_numeric` for non-ASCII characters. -/
def unicodeNumericRanges : List (Nat × Nat) :=
  [(0xB2, 0xB3), (0xB9, 0xB9), (0xBC, 0xBE), (0x660, 0x669), (0x6F0, 0x6F9), (0x7C0, 0x7C9),
   (0x966, 0x96F), (0x9E6, 0x9EF), (0x9F4, 0x9F9), (0xA66, 0xA6F), (0xAE6, 0xAEF),
   (0xB66, 0xB6F), (0xB72, 0xB77), (0xBE6, 0xBF2), (0xC66, 0xC6F), (0xC78, 0xC7E),
   (0xCE6, 0xCEF), (0xD58, 0xD5E), (0xD66, 0xD78), (0xDE6, 0xDEF), (0xE50, 0xE59),
   (0xED0, 0xED9), (0xF20, 0xF33), (0x1040, 0x1049), (0x1090, 0x1099), (0x1369, 0x137C),
   (0x16EE, 0x16F0), (0x17E0, 0x17E9), (0x17F0, 0x17F9), (0x1810, 0x1819), (0x1946, 0x194F),
   (0x19D0, 0x19DA), (0x1A80, 0x1A89), (0x1A90, 0x1A99), (0x1B50, 0x1B59), (0x1BB0, 0x1BB9),
   (0x1C40, 0x1C49), (0x1C50, 0x1C59), (0x2070, 0x2070), (0x2074, 0x2079), (0x2080, 0x2089),
   (0x2150, 0x2182), (0x2185, 0x2189), (0x2460, 0x249B), (0x24EA, 0x24FF), (0x2776, 0x2793),
   (0x2CFD, 0x2CFD), (0x3007, 0x3007), (0x3021, 0x3029), (0x3038, 0x303A), (0x3192, 0x3195),
   (0x3220, 0x3229), (0x3248, 0x324F), (0x3251, 0x325F), (0x3280, 0x3289), (0x32B1, 0x32BF),
   (0xA620, 0xA629), (0xA6E6, 0xA6EF), (0xA830, 0xA835), (0xA8D0, 0xA8D9), (0xA900, 0xA909),
   (0xA9D0, 0xA9D9), (0xA9F0, 0xA9F9), (0xAA50, 0xAA59), (0xABF0, 0xABF9), (0xFF10, 0xFF19),
   (0x10107, 0x10133), (0x10140, 0x10178), (0x1018A, 0x1018B), (0x102E1, 0x102FB),
   (0x10320, 0x10323), (0x10341, 0x10341), (0x1034A, 0x1034A), (0x103D1, 0x103D5),
   (0x104A0, 0x104A9), (0x10858, 0x1085F), (0x10879, 0x1087F), (0x108A7, 0x108AF),
   (0x108FB, 0x108FF), (0x10916, 0x1091B), (0x109BC, 0x109BD), (0x109C0, 0x109CF),
   (0x109D2, 0x109FF), (0x10A40, 0x10A48), (0x10A7D, 0x10A7E), (0x10A9D, 0x10A9F),
   (0x10AEB, 0x10AEF), (0x10B58, 0x10B5F), (0x10B78, 0x10B7F), (0x10BA9, 0x10BAF),
   (0x10CFA, 0x10CFF), (0x10D30, 0x10D39), (0x10E60, 0x10E7E), (0x10F1D, 0x10F26),
   (0x10F51, 0x10F54), (0x10FC5, 0x10FCB), (0x11052, 0x1106F), (0x110F0, 0x110F9),
   (0x11136, 0x1113F), (0x111D0, 0x111D9), (0x111E1, 0x111F4), (0x112F0, 0x112F9),
   (0x11450, 0x11459), (0x114D0, 0x114D9), (0x11650, 0x11659), (0x116C0, 0x116C9),
   (0x11730, 0x1173B), (0x118E0, 0x118F2), (0x11950, 0x11959), (0x11C50, 0x11C6C),
   (0x11D50, 0x11D59), (0x11DA0, 0x11DA9), (0x11FC0, 0x11FD4), (0x12400, 0x1246E),
   (0x16A60, 0x16A69), (0x16AC0, 0x16AC9), (0x16B50, 0x16B59), (0x16B5B, 0x16B61),
   (0x16E80, 0x16E96), (0x1D2E0, 0x1D2F3), (0x1D360, 0x1D378), (0x1D7CE, 0x1D7FF),
   (0x1E140, 0x1E149), (0x1E2F0, 0x1E2F9), (0x1E8C7, 0x1E8CF), (0x1E950, 0x1E959),
   (0x1EC71, 0x1ECAB), (0x1ECAD, 0x1ECAF), (0x1ECB1, 0x1ECB4), (0x1ED01, 0x1ED2D),
   (0x1ED2F, 0x1ED3D), (0x1F100, 0x1F10C), (0x1FBF0, 0x1FBF9)]

/-- Rust `char::is_numeric`: true for `'0'..='9'`, and for characters above
0x7f exactly when the codepoint lies in a number-category range. -/
def charIsNumeric (c : Char) : Bool :=
  if c.isDigit then true
  else if 0x7f < c.toNat then
    unicodeNumericRanges.any fun p => p.1 ≤ c.toNat && c.toNat ≤ p.2
  else false

/-- The body of the placement loop of `GameState::from_str` for one character:
`rank` is the rank-group index, the state is the 12 bitboards plus the file
counter.  A piece letter executes
`bitboards[piece.index()] |= 1 << ((7 - rank) * 8 + (7 - file))` with
debug-profile checks (each `usize` subtraction panics on underflow, the `u64`
shift panics when the amount reaches 64, the array index panics when out of
bounds); a `char::is_numeric` character is parsed as `usize` — on success the
value is added to the file counter, and on failure (a numeric character that
is not an ASCII digit) the parse aborts with an error; anything else falls
through the `if`/`else if` chain untouched. -/
def charStep (rank : Nat) (st : List Nat × Nat) (c : Char) : PRes (List Nat × Nat) :=
  match Piece.from_char c with
  | some piece =>
    match checkedSub 7 rank, checkedSub 7 st.2 with
    | some r, some f =>
      if r * 8 + f < 64 then
        match st.1.get? piece.index with
        | some old =>
          .ok (st.1.set piece.index (old ||| (1 <<< (r * 8 + f))), st.2 + 1)
        | none => .panic
      else .panic
    | _, _ => .panic
  | none =>
    if charIsNumeric c then
      match parseUsizeChar c with
      | .ok n => .ok (st.1, st.2 + n)
      | .error e => .fail ("Could not parse character a number: " ++ e)
    else .ok st

/-- The inner character loop of `GameState::from_str` over one rank-group. -/
def processChars (rank : Nat) (cs : List Char) (st : List Nat × Nat) :
    PRes (List Nat × Nat) :=
  match cs with
  | [] => .ok st
  | c :: rest =>
    match charStep rank st c with
    | .ok st' => processChars rank rest st'
    | .fail e => .fail e
    | .panic => .panic

/-- The outer loop of `GameState::from_str` over the `/`-separated
rank-groups: `for (rank, file_val) in board.split("/").enumerate()`, with the
file counter reset to 0 for each group. -/
def processGroups (groups : List (List Char)) (rank : Nat) (bbs : List Nat) :
    PRes (List Nat) :=
  match groups with
  | [] => .ok bbs
  | g :: rest =>
    match processChars rank g (bbs, 0) with
    | .ok st' => processGroups rest (rank + 1) st'.1
    | .fail e => .fail e
    | .panic => .panic

/-- The castling-rights part of `GameState::from_str`: start from
`[false; 4]` and set the flags whose letters occur in the field, in the
source's order (`K`, `k`, `Q`, `q` setting indices 0, 2, 1, 3). -/
def parseCastling (cs : List Char) : List Bool :=
  let c0 := [false, false, false, false]
  let c1 := if cs.contains 'K' then c0.set 0 true else c0
  let c2 := if cs.contains 'k' then c1.set 2 true else c1
  let c3 := if cs.contains 'Q' then c2.set 1 true else c2
  if cs.contains 'q' then c3.set 3 true else c3

/-- Rust `str::parse::<u8>()`: optional leading `+`, then one or more ASCII
digits, value at most 255.  Error messages are `u8`'s `FromStr` messages. -/
def parseU8 (s : String) : Except String Nat :=
  if s.data.isEmpty then .error "cannot parse integer from empty string"
  else
    let digits := match s.data with
      | '+' :: rest => rest
      | l => l
    if digits.isEmpty then .error "invalid digit found in string"
    else if digits.all Char.isDigit then
      let v := digits.foldl (fun acc c => acc * 10 + (c.toNat - 48)) 0
      if v ≤ 255 then .ok v else .error "number too large to fit in target data type"
    else .error "invalid digit found in string"

/-- `GameState::from_str` after the input has been split on spaces.  Mirrors
the source line by line: the length check, the placement loop, the active
color, the castling flags, the en-passant field (delegated to
`square_number_from_str` unless it is `"-"`), and the two counters. -/
def fromFields (splits : List (List Char)) : PRes GameState :=
  if splits.length < 6 then .fail "Not enough fields for "
  else
    match splits.get? 0 with
    | none => .fail "No board state"
    | some board =>
      match processGroups (splitChars '/' board) 0 (List.replicate 12 0) with
      | .panic => .panic
      | .fail e => .fail e
      | .ok bitboards =>
        match splits.get? 1 with
        | none => .fail "No color"
        | some colorField =>
          let active_color : Color := if colorField = ['w'] then .White else .Black
          match splits.get? 2 with
          | none => .fail "No castling rights"
          | some castlingRightsField =>
            let castling_rights := parseCastling castlingRightsField
            match splits.get? 3 with
            | none => .fail "No en passant target"
            | some epf =>
              match (if epf = ['-'] then .ok none
                     else square_number_from_str (String.mk epf)) with
              | .panic => .panic
              | .fail e => .fail e
              | .ok en_passant_target =>
                match splits.get? 4 with
                | none => .fail "No half move clock"
                | some hmf =>
                  match parseU8 (String.mk hmf) with
                  | .error e => .fail ("Could not parse half move clock: " ++ e)
                  | .ok half_move_clock =>
                    match splits.get? 5 with
                    | none => .fail "No full move number"
                    | some fmf =>
                      match parseU8 (String.mk fmf) with
                      | .error e => .fail ("Could not parse full move number: " ++ e)
                      | .ok full_move_number =>
                        .ok { bitboards, active_color, castling_rights,
                              en_passant_target, half_move_clock, full_move_number }

/-- `impl FromStr for GameState`: split the input on ASCII space and process
the fields. -/
def GameState.fromStr (s : String) : PRes GameState :=
  fromFields (splitChars ' ' s.data)

/-- The scan inside `GameState::get_piece_at`: iterate the bitboards with
their indices, returning `Piece::from_index` of the first index whose board
intersects the mask. -/
def find_piece (mask : Nat) : Nat → List Nat → Option Piece
  | _, [] => none
  | i, bb :: rest =>
    if mask &&& bb ≠ 0 then Piece.from_index i else find_piece mask (i + 1) rest

/-- `GameState::get_piece_at`.  The source takes `usize` rank and file and
indexes `RANKS`/`FILES` with them (panicking out of bounds); the spec calls
out-of-range input a contract violation, so the embedding takes `Fin 8`. -/
def GameState.get_piece_at (gs : GameState) (rank file : Fin 8) : Option Piece :=
  let mask := RANKS.get ⟨rank.val, rank.isLt⟩ &&& FILES.get ⟨file.val, file.isLt⟩
  find_piece mask 0 gs.bitboards

/-- `GameState::get_board_state`: the 8×8 grid of `get_piece_at` results,
indexed `[rank][file]`. -/
def GameState.get_board_state (gs : GameState) : List (List (Option Piece)) :=
  (List.finRange 8).map fun rank => (List.finRange 8).map fun file =>
    gs.get_piece_at rank file

/-- One rank-group of the `Display` output: fold over the row collapsing
runs of empties into their decimal count, flushing a trailing run at the
end. -/
def rankString (row : List (Option Piece)) : String :=
  let acc := row.foldl
    (fun (acc : String × Nat) val =>
      match val with
      | some piece =>
        ((if acc.2 > 0 then acc.1 ++ toString acc.2 else acc.1) ++ piece.fen, 0)
      | none => (acc.1, acc.2 + 1))
    ("", 0)
  if acc.2 > 0 then acc.1 ++ toString acc.2 else acc.1

/-- `str::to_lowercase` restricted to ASCII (the only strings it is applied
to are `""`, `"K"` and `"Q"`). -/
def strToLower (s : String) : String := String.mk (s.data.map Char.toLower)

/-- One iteration of the castling loop in `Display`: even indices emit `K`,
odd indices `Q`, true flags only, lower-cased from index 2 on. -/
def castlingChar (i : Nat) (can_castle : Bool) : String :=
  let c := if i % 2 = 0 && can_castle then "K" else if can_castle then "Q" else ""
  if i ≥ 2 then strToLower c else c

/-- The castling field of the `Display` output: the concatenated characters,
or `"-"` when no flag is set. -/
def castlingField (rights : List Bool) : String :=
  let buffer := String.join (rights.enum.map fun p => castlingChar p.1 p.2)
  if buffer = "" then "-" else buffer

/-- The en-passant token of the `Display` output (without the trailing
space): `RANK_MATRIX[target / 8]` followed by `target % 8 + 1`.  `none`
models the out-of-bounds index panic when `target / 8 ≥ 8`. -/
def epToken (target : Nat) : Option String :=
  (RANK_MATRIX.get? (target / 8)).map fun r => r ++ toString (target % 8 + 1)

/-- `impl Display for GameState`: the full FEN string, built exactly in the
source's `write!` order (each of the first four fields carries a trailing
space, the last two are joined by one).  `none` models the panic of an
en-passant target of 64 or more. -/
def GameState.toFen (gs : GameState) : Option String :=
  let position := String.intercalate "/" (gs.get_board_state.reverse.map rankString)
  let colorField := match gs.active_color with
    | .Black => "b "
    | .White => "w "
  let castling := castlingField gs.castling_rights
  let epField : Option String := match gs.en_passant_target with
    | some target => (epToken target).map (· ++ " ")
    | none => some "- "
  match epField with
  | none => none
  | some ep =>
    some (position ++ " " ++ colorField ++ castling ++ " " ++ ep ++
          toString gs.half_move_clock ++ " " ++ toString gs.full_move_number)

/-- A rank-group avoids the placement loop's debug-profile panics when
every piece letter in it is scanned while the rank-group index and the file
counter are both at most 7 (otherwise `7 - rank` or `7 - file` underflows). -/
def groupSafe (rank file : Nat) : List Char → Bool
  | [] => true
  | c :: rest =>
    match Piece.from_char c with
    | some _ => decide (rank ≤ 7) && decide (file ≤ 7) && groupSafe rank (file + 1) rest
    | none =>
      if c.isDigit then groupSafe rank (file + (c.toNat - 48)) rest
      else groupSafe rank file rest

/-- All rank-groups of a placement field are safe, the group at position
`i` being checked at rank-group index `rank + i`. -/
def groupsSafe (rank : Nat) : List (List Char) → Bool
  | [] => true
  | g :: rest => groupSafe rank 0 g && groupsSafe (rank + 1) rest

/-- The en-passant field never reaches the underflowing subtraction inside
`square_number_from_str`: it is `"-"`, or empty, or starts with a character
that is not a hexadecimal digit. -/
def epFieldSafe (cs : List Char) : Bool :=
  decide (cs = ['-']) ||
    (match cs.get? 0 with
     | none => true
     | some c => (charToDigit 16 c).isNone)

/-- Spec-side definition (§3 of the spec): the rank of a piece kind in the
order Pawn, Knight, Bishop, Rook, Queen, King, used by the spec's index
formula `2*kind_rank + color_index`. -/
def Piece.kind_rank : Piece → Nat
  | .Pawn _ => 0
  | .Knight _ => 1
  | .Bishop _ => 2
  | .Rook _ => 3
  | .Queen _ => 4
  | .King _ => 5

/-- The color parameter of a piece variant. -/
def Piece.piece_color : Piece → Color
  | .Pawn c => c
  | .Knight c => c
  | .Bishop c => c
  | .Rook c => c
  | .Queen c => c
  | .King c => c

/-- Dropping fields past the sixth does not change the parse: `fromFields`
reads only the first six fields once the length check has passed. -/
theorem fromFields_take (l : List (List Char)) (h : 6 ≤ l.length) :
    fromFields l = fromFields (l.take 6) := by
  rcases l with _ | ⟨a, _ | ⟨b, _ | ⟨c, _ | ⟨d, _ | ⟨e, _ | ⟨f, rest⟩⟩⟩⟩⟩⟩
  all_goals simp only [List.length_nil, List.length_cons] at h
  all_goals try omega
  show fromFields _ = fromFields [a, b, c, d, e, f]
  unfold fromFields
  rw [if_neg (by simp only [List.length_cons]; omega),
      if_neg (by simp only [List.length_cons, List.length_nil]; omega)]
  rfl

example : square_number_from_str "a1" = PRes.panic := by decide
example : square_number_from_str "g1" = PRes.ok none := by decide
example : square_number_from_str "-" = PRes.ok none := by decide
example : square_number_from_str "" = PRes.ok none := by decide
example : RANKS.get ⟨1, by decide⟩ = 0xFF00 := by decide

example : splitChars ' ' "a b".data = [['a'], ['b']] := by decide
example : splitChars ' ' "".data = [[]] := by decide
example : splitChars ' ' "a  b ".data = [['a'], [], ['b'], []] := by decide
example : parseU8 "0" = .ok 0 := rfl
example : parseU8 "256" = .error "number too large to fit in target data type" := rfl
example : castlingField [true, true, true, true] = "KQkq" := by decide
example : castlingField [false, false, false, false] = "-" := by decide
example : castlingField [false, true, true, false] = "Qk" := by decide
example : epToken 2 = some "a3" := by decide
example : epToken 64 = none := by decide

/-- C1: serializing the standard starting Position yields exactly the string
"rnbqkbnr/pppppppp/8/8/8/8/PPPPPPPP/RNBQKBNR w KQkq - 0 1", and parsing that
string yields a Position equal to the standard starting Position. -/
theorem claim_C1_default_roundtrip :
    GameState.default.toFen =
      some "rnbqkbnr/pppppppp/8/8/8/8/PPPPPPPP/RNBQKBNR w KQkq - 0 1" ∧
    GameState.fromStr "rnbqkbnr/pppppppp/8/8/8/8/PPPPPPPP/RNBQKBNR w KQkq - 0 1" =
      PRes.ok GameState.default := by
  constructor <;> decide

/-- C2: evaluation of the square-from-text helper at failing inputs.  The
claim requires `square_number_from_str "a1" = some 0` (namely
`(10 - 10) * 8 + (1 - 1)`), but the code's unparenthesized `- 10 * 8`
subtracts 80 from a hex digit of at most 15, a `u8` underflow that panics in
the debug profile (and yields 186 under release wrapping).  The claim also
treats 'g' as hex digit 16, but `to_digit(16)` rejects 'g', so "g1" yields
`none` instead of `some 48`. -/
theorem claim_C2_square_eval :
    square_number_from_str "a1" = PRes.panic ∧
    square_number_from_str "g1" = PRes.ok none := by
  constructor <;> decide

/-- C3: evaluation of the en-passant round-trip at square 2.  Encoding gives
the token "a3" (letter `RANK_MATRIX[2 / 8]`, number `2 % 8 + 1`), but
decoding "a3" panics in the square-from-text helper instead of returning
`some 2`, so the round-trip fails for every square. -/
theorem claim_C3_ep_roundtrip_eval :
    epToken 2 = some "a3" ∧ square_number_from_str "a3" = PRes.panic := by
  constructor <;> decide

/-- C5: parsing splits on ASCII space and fails with the "not enough fields"
error whenever fewer than 6 fields result; with at least 6 fields the result
is determined by the first 6 fields alone, so extra trailing fields are
ignored. -/
theorem claim_C5_field_count :
    (∀ s : String, (splitChars ' ' s.data).length < 6 →
      GameState.fromStr s = PRes.fail "Not enough fields for ") ∧
    (∀ s : String, 6 ≤ (splitChars ' ' s.data).length →
      GameState.fromStr s = fromFields ((splitChars ' ' s.data).take 6)) := by
  constructor
  · intro s h
    unfold GameState.fromStr fromFields
    rw [if_pos h]
  · intro s h
    exact fromFields_take _ h

/-- C5 witness: a 4-field input fails with the missing-field error, and a
7-field input parses exactly as its first 6 fields do. -/
theorem claim_C5_witness :
    GameState.fromStr "a b c d" = PRes.fail "Not enough fields for " ∧
    GameState.fromStr "x w - - 0 1 extra" =
      fromFields ((splitChars ' ' "x w - - 0 1 extra".data).take 6) :=
  ⟨claim_C5_field_count.1 "a b c d" (by decide),
   claim_C5_field_count.2 "x w - - 0 1 extra" (by decide)⟩

/-- C6: the piece-variant index mapping is a bijection onto 0..12:
`from_index` then `index` is the identity on indices 0..11, `index` then
`from_index` is the identity on variants, the index is
`2 * kind_rank + color_index`, and White maps to 0, Black to 1. -/
theorem claim_C6_piece_index_bijection :
    (∀ i : Fin 12, (Piece.from_index i.val).map Piece.index = some i.val) ∧
    (∀ p : Piece, Piece.from_index p.index = some p) ∧
    (∀ p : Piece, p.index = 2 * p.kind_rank + p.piece_color.index) ∧
    Color.index .White = 0 ∧ Color.index .Black = 1 := by
  refine ⟨by decide, ?_, ?_, rfl, rfl⟩
  · intro p
    cases p <;> rename_i c <;> cases c <;> rfl
  · intro p
    cases p <;> rename_i c <;> cases c <;> rfl

/-- Every piece variant's index is below 12. -/
theorem piece_index_lt (p : Piece) : p.index < 12 := by
  cases p <;> rename_i c <;> cases c <;> decide

/-- `Piece.from_index` succeeds below 12. -/
theorem from_index_isSome_of_lt (i : Nat) (h : i < 12) :
    (Piece.from_index i).isSome := by
  interval_cases i <;> rfl

/-- The mask `RANKS[rank] & FILES[file]` is the single bit
`rank * 8 + (7 - file)`. -/
theorem mask_eq_two_pow :
    ∀ r f : Fin 8,
      RANKS.get ⟨r.val, r.isLt⟩ &&& FILES.get ⟨f.val, f.isLt⟩ =
        2 ^ (r.val * 8 + (7 - f.val)) := by decide

/-- The bitboard scan with a single-bit mask is the first-index search for
that bit, composed with `Piece.from_index`. -/
theorem find_piece_eq_findIdx (n : Nat) (l : List Nat) :
    ∀ i : Nat,
      find_piece (2 ^ n) i l =
        (List.findIdx? (fun bb => bb.testBit n) l i).bind Piece.from_index := by
  induction l with
  | nil => intro i; rfl
  | cons bb rest ih =>
    intro i
    by_cases hb : bb.testBit n
    · have hne : 2 ^ n &&& bb ≠ 0 := by
        rw [Nat.two_pow_and, hb]
        simp
      simp [find_piece, List.findIdx?_cons, hne, hb]
    · have heq : 2 ^ n &&& bb = 0 := by
        rw [Nat.two_pow_and]
        simp [hb]
      simp [find_piece, List.findIdx?_cons, heq, hb, ih]

/-- C7: for all 16 combinations of the 4 castling flags (stored in order
[White king-side, White queen-side, Black king-side, Black queen-side]),
serializing the castling field and then parsing it reproduces the same flag
vector; the all-false vector serializes to "-" and "-" parses to all-false. -/
theorem claim_C7_castling_roundtrip :
    (∀ a b c d : Bool,
      parseCastling (castlingField [a, b, c, d]).data = [a, b, c, d]) ∧
    castlingField [false, false, false, false] = "-" ∧
    parseCastling "-".data = [false, false, false, false] := by
  refine ⟨by decide, by decide, by decide⟩

/-- C9 (amended): for every state of the 12 bitboards and every rank and
file in 0..8, `get_piece_at` equals the scan of the 12 bitboards in
ascending index order for the first one with bit `rank * 8 + (7 - file)`
set, composed with `Piece.from_index`; consequently it returns some piece
iff that bit is set in at least one of the 12 bitboards (the first-match
owner, not necessarily a unique occupant). -/
theorem claim_C9_get_piece_at_first_match
    (b0 b1 b2 b3 b4 b5 b6 b7 b8 b9 b10 b11 : Nat) (col : Color)
    (cr : List Bool) (ep : Option Nat) (hm fm : Nat) (r f : Fin 8) :
    (GameState.mk [b0, b1, b2, b3, b4, b5, b6, b7, b8, b9, b10, b11]
        col cr ep hm fm).get_piece_at r f =
      (List.findIdx? (fun bb => bb.testBit (r.val * 8 + (7 - f.val)))
        [b0, b1, b2, b3, b4, b5, b6, b7, b8, b9, b10, b11]).bind Piece.from_index ∧
    (((GameState.mk [b0, b1, b2, b3, b4, b5, b6, b7, b8, b9, b10, b11]
        col cr ep hm fm).get_piece_at r f).isSome ↔
      ∃ bb ∈ [b0, b1, b2, b3, b4, b5, b6, b7, b8, b9, b10, b11],
        bb.testBit (r.val * 8 + (7 - f.val))) := by
  have h1 :
      (GameState.mk [b0, b1, b2, b3, b4, b5, b6, b7, b8, b9, b10, b11]
          col cr ep hm fm).get_piece_at r f =
        (List.findIdx? (fun bb => bb.testBit (r.val * 8 + (7 - f.val)))
          [b0, b1, b2, b3, b4, b5, b6, b7, b8, b9, b10, b11]).bind Piece.from_index := by
    unfold GameState.get_piece_at
    rw [mask_eq_two_pow r f]
    exact find_piece_eq_findIdx _ _ 0
  refine ⟨h1, ?_⟩
  rw [h1]
  constructor
  · intro hs
    rcases ho : List.findIdx? (fun bb => bb.testBit (r.val * 8 + (7 - f.val)))
        [b0, b1, b2, b3, b4, b5, b6, b7, b8, b9, b10, b11] with _ | i
    · rw [ho] at hs
      simp at hs
    · rcases List.findIdx?_eq_some_iff_getElem.mp ho with ⟨hi, hp, _⟩
      exact ⟨_, List.getElem_mem hi, hp⟩
  · rintro ⟨bb, hmem, hbb⟩
    rcases ho : List.findIdx? (fun bb => bb.testBit (r.val * 8 + (7 - f.val)))
        [b0, b1, b2, b3, b4, b5, b6, b7, b8, b9, b10, b11] with _ | i
    · have := List.findIdx?_eq_none_iff.mp ho bb hmem
      simp [hbb] at this
    · rw [ho]
      have hi := (List.findIdx?_eq_some_iff_findIdx_eq.mp ho).1
      simp only [List.length_cons, List.length_nil] at hi
      have := from_index_isSome_of_lt i (by omega)
      rcases hfi : Piece.from_index i with _ | p
      · rw [hfi] at this
        simp at this
      · simp [hfi]

/-- A character recognized as a piece letter is not an ASCII digit. -/
theorem from_char_isDigit_false (c : Char) (p : Piece)
    (h : Piece.from_char c = some p) : c.isDigit = false := by
  unfold Piece.from_char at h
  split at h <;> simp_all

/-- Inversion for `charToDigit 10`: a successful parse means the character
is an ASCII digit and the value is its numeric value. -/
theorem charToDigit10_some (c : Char) (d : Nat) (h : charToDigit 10 c = some d) :
    c.isDigit = true ∧ d = c.toNat - 48 := by
  unfold charToDigit at h
  by_cases h1 : c.isDigit
  · refine ⟨h1, ?_⟩
    rw [if_pos h1] at h
    split at h
    · exact (Option.some.inj h).symm
    · exact absurd h (by simp)
  · rw [if_neg h1] at h
    split at h
    · split at h
      · omega
      · exact absurd h (by simp)
    · split at h
      · split at h
        · omega
        · exact absurd h (by simp)
      · exact absurd h (by simp)

/-- The placement-loop step on a recognized piece letter, when the
rank-group index and file counter are in range: the checked subtractions,
the shift bound and the array index all succeed, and the piece's bit is
set. -/
theorem charStep_piece (bbs : List Nat) (h12 : bbs.length = 12)
    (rank file : Nat) (hrk : rank ≤ 7) (hfl : file ≤ 7) (c : Char) (p : Piece)
    (hp : Piece.from_char c = some p) :
    charStep rank (bbs, file) c =
      .ok (bbs.set p.index
        (bbs.getD p.index 0 ||| 2 ^ ((7 - rank) * 8 + (7 - file))), file + 1) := by
  have hr : checkedSub 7 rank = some (7 - rank) := by
    unfold checkedSub
    rw [if_pos (by omega)]
  have hf : checkedSub 7 file = some (7 - file) := by
    unfold checkedSub
    rw [if_pos (by omega)]
  have hlt : p.index < bbs.length := by
    rw [h12]
    exact piece_index_lt p
  rcases hg : bbs.get? p.index with _ | old
  · exact absurd (List.get?_eq_none.mp hg) (by omega)
  · have hold : old = bbs.getD p.index 0 := by
      rw [List.getD_eq_getElem?_getD, ← List.get?_eq_getElem?, hg]
      rfl
    simp only [charStep, hp, hr, hf, hg]
    rw [if_pos (by omega : (7 - rank) * 8 + (7 - file) < 64)]
    rw [hold, Nat.one_shiftLeft]

/-- C8 (amended): the placement-loop step.  With the rank-group index and
file counter in range (both are `Fin 8`) and the 12 bitboards in hand: a
recognized piece letter sets bit `(7 - rank) * 8 + (7 - file)` in that
piece's bitboard and increments the file counter; an ASCII decimal digit
adds its numeric value to the file counter and leaves every bitboard
unchanged; a character that is neither a piece letter nor `char::is_numeric`
is skipped without error; but a `char::is_numeric` character that is not an
ASCII decimal digit is not skipped — it aborts the parse with the
could-not-parse error (see the counterexample). -/
theorem claim_C8_placement_loop_step (bbs : List Nat) (h12 : bbs.length = 12)
    (rank file : Fin 8) (c : Char) :
    (∀ p : Piece, Piece.from_char c = some p →
      charStep rank.val (bbs, file.val) c =
        .ok (bbs.set p.index
          (bbs.getD p.index 0 ||| 2 ^ ((7 - rank.val) * 8 + (7 - file.val))),
          file.val + 1)) ∧
    (∀ d : Nat, charToDigit 10 c = some d →
      charStep rank.val (bbs, file.val) c = .ok (bbs, file.val + d)) ∧
    (Piece.from_char c = none → charIsNumeric c = false →
      charStep rank.val (bbs, file.val) c = .ok (bbs, file.val)) ∧
    (Piece.from_char c = none → charIsNumeric c = true → c.isDigit = false →
      charStep rank.val (bbs, file.val) c =
        .fail "Could not parse character a number: invalid digit found in string") := by
  refine ⟨?_, ?_, ?_, ?_⟩
  · intro p hp
    exact charStep_piece bbs h12 rank.val file.val (Nat.lt_succ_iff.mp rank.isLt)
      (Nat.lt_succ_iff.mp file.isLt) c p hp
  · intro d hd
    obtain ⟨hdig, rfl⟩ := charToDigit10_some c d hd
    rcases hfc : Piece.from_char c with _ | p
    · simp [charStep, hfc, charIsNumeric, hdig, parseUsizeChar]
    · exact absurd (from_char_isDigit_false c p hfc) (by simp [hdig])
  · intro h1 h2
    simp [charStep, h1, h2]
  · intro h1 h2 h3
    simp [charStep, h1, h2, h3, parseUsizeChar]

/-- C8 counterexample: the character '½' (U+00BD) is neither a piece letter
nor an ASCII decimal digit, yet it is not silently skipped: `char::is_numeric`
holds for it and its `usize` parse fails, so the placement loop — and with it
the whole parse — aborts with an error. -/
theorem claim_C8_counterexample :
    charStep 0 (List.replicate 12 0, 0) '½' =
      PRes.fail "Could not parse character a number: invalid digit found in string" ∧
    GameState.fromStr "½8/8/8/8/8/8/8/8 w - - 0 1" =
      PRes.fail "Could not parse character a number: invalid digit found in string" := by
  constructor <;> decide

/-- C8 witness: the step at rank-group 0, file 0 on all-empty bitboards, for
the piece letter 'p' (sets bit 63 of the Black-pawn board), the digit '3'
(advances the file counter by 3), the unrecognized letter 'x' (skipped), and
the numeric non-digit '¾' (aborts with an error). -/
theorem claim_C8_witness :
    charStep 0 (List.replicate 12 0, 0) 'p' =
      .ok ((List.replicate 12 0).set 1
        ((List.replicate 12 0).getD 1 0 ||| 2 ^ ((7 - 0) * 8 + (7 - 0))), 0 + 1) ∧
    charStep 0 (List.replicate 12 0, 0) '3' = .ok (List.replicate 12 0, 0 + 3) ∧
    charStep 0 (List.replicate 12 0, 0) 'x' = .ok (List.replicate 12 0, 0) ∧
    charStep 0 (List.replicate 12 0, 0) '¾' =
      .fail "Could not parse character a number: invalid digit found in string" :=
  ⟨(claim_C8_placement_loop_step (List.replicate 12 0) (by decide) 0 0 'p').1
      (Piece.Pawn .Black) (by decide),
   (claim_C8_placement_loop_step (List.replicate 12 0) (by decide) 0 0 '3').2.1
      3 (by decide),
   (claim_C8_placement_loop_step (List.replicate 12 0) (by decide) 0 0 'x').2.2.1
      (by decide) (by decide),
   (claim_C8_placement_loop_step (List.replicate 12 0) (by decide) 0 0 '¾').2.2.2
      (by decide) (by decide) (by decide)⟩

/-- C9 counterexample: a state whose White-pawn and Black-pawn bitboards
both contain square (rank 0, file 0), i.e. bit 7.  `get_piece_at 0 0`
returns some piece (the White pawn) although the bit is set in two of the
12 bitboards, not exactly one, so the claimed "Some iff set in exactly one"
equivalence fails. -/
theorem claim_C9_counterexample :
    ¬ (((GameState.mk [0x80, 0x80, 0, 0, 0, 0, 0, 0, 0, 0, 0, 0] .White
          [true, true, true, true] none 0 1).get_piece_at 0 0).isSome ↔
        ([(0x80 : Nat), 0x80, 0, 0, 0, 0, 0, 0, 0, 0, 0, 0].countP
          (fun bb => bb.testBit (0 * 8 + (7 - 0)))) = 1) := by decide



/-- A safe rank-group is processed without panic: the loop either finishes
with the bitboard count preserved, or aborts with an error (a numeric
non-digit character). -/
theorem processChars_safe (rank : Nat) :
    ∀ (cs : List Char) (bbs : List Nat) (file : Nat),
      bbs.length = 12 → groupSafe rank file cs = true →
      (∃ st' : List Nat × Nat,
        processChars rank cs (bbs, file) = .ok st' ∧ st'.1.length = 12) ∨
      (∃ e, processChars rank cs (bbs, file) = .fail e) := by
  intro cs
  induction cs with
  | nil =>
    intro bbs file hlen _
    exact Or.inl ⟨(bbs, file), rfl, hlen⟩
  | cons c rest ih =>
    intro bbs file hlen hsafe
    rcases hc : Piece.from_char c with _ | p
    · simp only [groupSafe, hc] at hsafe
      by_cases hd : c.isDigit
      · rw [if_pos hd] at hsafe
        have step : charStep rank (bbs, file) c = .ok (bbs, file + (c.toNat - 48)) := by
          simp [charStep, hc, charIsNumeric, hd, parseUsizeChar]
        rcases ih bbs (file + (c.toNat - 48)) hlen hsafe with ⟨st', h1, h2⟩ | ⟨e, h1⟩
        · refine Or.inl ⟨st', ?_, h2⟩
          simp only [processChars]
          rw [step]
          exact h1
        · refine Or.inr ⟨e, ?_⟩
          simp only [processChars]
          rw [step]
          exact h1
      · rw [if_neg hd] at hsafe
        by_cases hnum : charIsNumeric c = true
        · have step : charStep rank (bbs, file) c =
              .fail "Could not parse character a number: invalid digit found in string" := by
            simp [charStep, hc, hnum, hd, parseUsizeChar]
          refine Or.inr
            ⟨"Could not parse character a number: invalid digit found in string", ?_⟩
          simp only [processChars]
          rw [step]
        · rw [Bool.not_eq_true] at hnum
          have step : charStep rank (bbs, file) c = .ok (bbs, file) := by
            simp [charStep, hc, hnum]
          rcases ih bbs file hlen hsafe with ⟨st', h1, h2⟩ | ⟨e, h1⟩
          · refine Or.inl ⟨st', ?_, h2⟩
            simp only [processChars]
            rw [step]
            exact h1
          · refine Or.inr ⟨e, ?_⟩
            simp only [processChars]
            rw [step]
            exact h1
    · simp only [groupSafe, hc, Bool.and_eq_true, decide_eq_true_eq] at hsafe
      obtain ⟨⟨hrk, hfl⟩, hrest⟩ := hsafe
      have step := charStep_piece bbs hlen rank file hrk hfl c p hc
      have hlen' :
          (bbs.set p.index
            (bbs.getD p.index 0 ||| 2 ^ ((7 - rank) * 8 + (7 - file)))).length = 12 := by
        rw [List.length_set]
        exact hlen
      rcases ih _ (file + 1) hlen' hrest with ⟨st', h1, h2⟩ | ⟨e, h1⟩
      · refine Or.inl ⟨st', ?_, h2⟩
        simp only [processChars]
        rw [step]
        exact h1
      · refine Or.inr ⟨e, ?_⟩
        simp only [processChars]
        rw [step]
        exact h1

/-- A placement field whose rank-groups are all safe is processed without
panic: it yields bitboards or an error. -/
theorem processGroups_safe :
    ∀ (groups : List (List Char)) (rank : Nat) (bbs : List Nat),
      bbs.length = 12 → groupsSafe rank groups = true →
      (∃ bbs', processGroups groups rank bbs = .ok bbs') ∨
        (∃ e, processGroups groups rank bbs = .fail e) := by
  intro groups
  induction groups with
  | nil =>
    intro rank bbs _ _
    exact Or.inl ⟨bbs, rfl⟩
  | cons g rest ih =>
    intro rank bbs hlen hsafe
    simp only [groupsSafe, Bool.and_eq_true] at hsafe
    obtain ⟨hg, hrest⟩ := hsafe
    rcases processChars_safe rank g bbs 0 hlen hg with ⟨st', h1, h2⟩ | ⟨e, h1⟩
    · rcases ih (rank + 1) st'.1 h2 hrest with ⟨bbs', h3⟩ | ⟨e, h3⟩
      · exact Or.inl ⟨bbs', by simp [processGroups, h1, h3]⟩
      · exact Or.inr ⟨e, by simp [processGroups, h1, h3]⟩
    · exact Or.inr ⟨e, by simp [processGroups, h1]⟩

/-- A safe en-passant field is handled without panicking (it yields `none`
or never reaches the underflowing subtraction). -/
theorem square_safe (cs : List Char) (h : epFieldSafe cs = true) :
    ∃ r, (if cs = ['-'] then PRes.ok none
          else square_number_from_str (String.mk cs)) = PRes.ok r := by
  by_cases hdash : cs = ['-']
  · exact ⟨none, by rw [if_pos hdash]⟩
  · rw [if_neg hdash]
    unfold epFieldSafe at h
    rw [decide_eq_false hdash, Bool.false_or] at h
    unfold square_number_from_str
    rcases h0 : cs.get? 0 with _ | c0
    · exact ⟨none, by simp [h0]⟩
    · rw [h0] at h
      have hd : charToDigit 16 c0 = none := by
        simpa [Option.isNone_iff_eq_none] using h
      exact ⟨none, by simp [h0, hd]⟩

/-- `fromFields` on a list of at least six fields, computed: the length
check passes and each field access resolves. -/
theorem fromFields_cons (f0 f1 f2 f3 f4 f5 : List Char) (rest : List (List Char)) :
    fromFields (f0 :: f1 :: f2 :: f3 :: f4 :: f5 :: rest) =
      match processGroups (splitChars '/' f0) 0 (List.replicate 12 0) with
      | .panic => .panic
      | .fail e => .fail e
      | .ok bitboards =>
        match (if f3 = ['-'] then PRes.ok none
               else square_number_from_str (String.mk f3)) with
        | .panic => .panic
        | .fail e => .fail e
        | .ok en_passant_target =>
          match parseU8 (String.mk f4) with
          | .error e => .fail ("Could not parse half move clock: " ++ e)
          | .ok half_move_clock =>
            match parseU8 (String.mk f5) with
            | .error e => .fail ("Could not parse full move number: " ++ e)
            | .ok full_move_number =>
              .ok { bitboards,
                    active_color := if f1 = ['w'] then Color.White else Color.Black,
                    castling_rights := parseCastling f2,
                    en_passant_target, half_move_clock, full_move_number } := by
  unfold fromFields
  rw [if_neg (by simp only [List.length_cons]; omega)]
  rfl

/-- C4 (amended): parsing always terminates and, for every input string
whose placement field places piece letters only while the rank-group index
and file counter are at most 7 and whose en-passant field does not begin
with a hexadecimal digit (unless it is "-"), it returns either a fully
populated Position or an error value; no panic occurs and no partial
Position is ever returned on failure.  Inputs outside these conditions make
the debug-profile arithmetic underflow (see the counterexample). -/
theorem claim_C4_parse_total_amended (s : String)
    (hplace : groupsSafe 0
      (splitChars '/' ((splitChars ' ' s.data).getD 0 [])) = true)
    (hep : epFieldSafe ((splitChars ' ' s.data).getD 3 []) = true) :
    (∃ g, GameState.fromStr s = PRes.ok g) ∨
      (∃ e, GameState.fromStr s = PRes.fail e) := by
  unfold GameState.fromStr
  generalize hgen : splitChars ' ' s.data = l at hplace hep ⊢
  by_cases hlen : l.length < 6
  · right
    refine ⟨"Not enough fields for ", ?_⟩
    unfold fromFields
    rw [if_pos hlen]
  · rcases l with _ | ⟨f0, _ | ⟨f1, _ | ⟨f2, _ | ⟨f3, _ | ⟨f4, _ | ⟨f5, rest⟩⟩⟩⟩⟩⟩ <;>
      simp only [List.length_cons, List.length_nil] at hlen <;> try omega
    have e0 : (f0 :: f1 :: f2 :: f3 :: f4 :: f5 :: rest).getD 0 [] = f0 := rfl
    have e3 : (f0 :: f1 :: f2 :: f3 :: f4 :: f5 :: rest).getD 3 [] = f3 := rfl
    rw [e0] at hplace
    rw [e3] at hep
    rw [fromFields_cons]
    rcases processGroups_safe (splitChars '/' f0) 0
        (List.replicate 12 0) (by simp) hplace with ⟨bbs', hpg⟩ | ⟨efail, hpg⟩
    · rw [hpg]
      obtain ⟨ept, hepr⟩ := square_safe f3 hep
      rw [hepr]
      rcases h4 : parseU8 (String.mk f4) with e | v
      · right
        exact ⟨_, rfl⟩
      · rcases h5 : parseU8 (String.mk f5) with e | w
        · right
          exact ⟨_, rfl⟩
        · left
          exact ⟨_, rfl⟩
    · right
      refine ⟨efail, ?_⟩
      rw [hpg]

/-- C4 counterexample: three inputs on which parsing panics in the debug
profile instead of returning a Position or an error.  A ninth rank-group
containing a piece letter makes `7 - rank` underflow; a ninth piece letter
in one rank-group makes `7 - file` underflow; and an ordinary en-passant
square such as "e3" makes the helper's `- 10 * 8` underflow. -/
theorem claim_C4_counterexample :
    GameState.fromStr "8/8/8/8/8/8/8/8/p w - - 0 1" = PRes.panic ∧
    GameState.fromStr "ppppppppp/8/8/8/8/8/8/8 w - - 0 1" = PRes.panic ∧
    GameState.fromStr "rnbqkbnr/pppppppp/8/8/8/8/PPPPPPPP/RNBQKBNR w KQkq e3 0 1" =
      PRes.panic := by
  refine ⟨by decide, by decide, by decide⟩

/-- C4 witness: the amended safety theorem applied to the empty-board FEN
string, whose placement and en-passant fields satisfy the side conditions. -/
theorem claim_C4_witness :
    (∃ g, GameState.fromStr "8/8/8/8/8/8/8/8 w - - 0 1" = PRes.ok g) ∨
      (∃ e, GameState.fromStr "8/8/8/8/8/8/8/8 w - - 0 1" = PRes.fail e) :=
  claim_C4_parse_total_amended "8/8/8/8/8/8/8/8 w - - 0 1" (by decide) (by decide)

/-- C10: serialization is total over every valid Position: for any bitboards,
color, castling flags and counters, and an en-passant target that is absent
or a square in 0..64, `toFen` produces a FEN string, with no out-of-bounds
access of the rank-letter table. -/
theorem claim_C10_serialize_total
    (b0 b1 b2 b3 b4 b5 b6 b7 b8 b9 b10 b11 : Nat) (col : Color)
    (cr : List Bool) (ep : Option Nat) (hm fm : Nat)
    (h : ep = none ∨ ∃ e, ep = some e ∧ e < 64) :
    ((GameState.mk [b0, b1, b2, b3, b4, b5, b6, b7, b8, b9, b10, b11]
        col cr ep hm fm).toFen).isSome := by
  rcases h with rfl | ⟨e, rfl, he⟩
  · simp [GameState.toFen]
  · have h8 : e / 8 < 8 := by omega
    rcases hg : RANK_MATRIX.get? (e / 8) with _ | letter
    · have := List.get?_eq_none.mp hg
      simp only [RANK_MATRIX, List.length_cons, List.length_nil] at this
      omega
    · have hg2 : RANK_MATRIX[e / 8]? = some letter := by
        rw [← List.get?_eq_getElem?]
        exact hg
      simp [GameState.toFen, epToken, hg2]

/-- C10 witness: the serializer applied to a state with en-passant target
square 20 produces a string. -/
theorem claim_C10_witness :
    ((GameState.mk [0, 0, 0, 0, 0, 0, 0, 0, 0, 0, 0, 0] .Black
        [false, false, false, false] (some 20) 3 4).toFen).isSome :=
  claim_C10_serialize_total 0 0 0 0 0 0 0 0 0 0 0 0 .Black
    [false, false, false, false] (some 20) 3 4 (Or.inr ⟨20, rfl, by omega⟩)
